import Mathlib

/-!
Verification of the GTM-SM model (src/model.py) against its specification.

The development shallowly embeds the model's core computations:
the trajectory sampler random_walk, the spatial-state transition loops,
the importance-weight / mixture-density arithmetic of the training and
inference branches, and the control-flow skeleton of forward (field
mutation, input normalization, error propagation).

Randomness is modelled by explicit tapes: every value the Python code
draws from a random generator is an input here.  Machine floats are
modelled by an arbitrary linear ordered field (instantiated at the reals
for the analytic claims and at the rationals for concrete evaluations).
-/

set_option maxRecDepth 20000
set_option maxHeartbeats 1000000

/-- Per-sample state of the inner loop of GTM_SM.random_walk
(src/model.py lines 304-373).  pos is the integer grid position
(coordinate 0 is the row index position[.,0,.], coordinate 1 the column
position[.,1,.]), act is action_random_selection, dur is action_duriation,
needStop is need_to_stop, newFlag is new_continue_action_flag, and label
is the action_selection entry emitted at the current timestep. -/
structure WalkState where
  pos : ℤ × ℤ
  act : ℕ
  dur : ℤ
  needStop : Bool
  newFlag : Bool
  label : ℕ
deriving DecidableEq

/-- Randomness consumed by one sample's walk: the initial position
(np.random.randint(0, 9, size=2), hence in [0,8] by construction), the
stream of action proposals offered to the rejection loop at each
resampling step (np.random.randint(0, 4)), and the Poisson duration draw
at each resampling step. A finite proposal list with no valid entry models
a rejection loop that does not terminate within the provided draws. -/
structure WalkRand where
  initPos : Fin 9 × Fin 9
  props : ℕ → List (Fin 4)
  durs : ℕ → ℕ

/-- The rejection test of src/model.py lines 320-323: a freshly drawn
action is accepted iff it does not immediately violate a boundary. -/
def validActionB (pos : ℤ × ℤ) (a : ℕ) : Bool :=
  !((a == 0 && pos.2 == 8) || (a == 1 && pos.2 == 0) ||
    (a == 2 && pos.1 == 0) || (a == 3 && pos.1 == 8))

/-- Displacement of each action (lines 334, 342, 350, 358): action 0 is
column +1, action 1 column -1, action 2 row -1, and the final `else`
branch (action 3) row +1. -/
def moveDelta (a : ℕ) : ℤ × ℤ :=
  if a = 0 then (0, 1)
  else if a = 1 then (0, -1)
  else if a = 2 then (-1, 0)
  else (1, 0)

/-- The in-segment boundary test (lines 329, 337, 345, 353): the action
would leave the 9 x 9 grid from the given position. -/
def crossesBoundary (pos : ℤ × ℤ) (a : ℕ) : Bool :=
  if a = 0 then pos.2 == 8
  else if a = 1 then pos.2 == 0
  else if a = 2 then pos.1 == 0
  else pos.1 == 8

/-- One in-segment update (lines 327-365): if the remaining duration is
positive and no stop has been forced, apply the action unless it would
cross a boundary, in which case force label 4 (stop), hold the position
and set `need_to_stop`; otherwise emit label 4 and hold the position.
The duration counter is then decremented unconditionally and
`new_continue_action_flag` is set when it reaches zero. -/
def applyMove (pos : ℤ × ℤ) (a : ℕ) (dur : ℤ) (needStop : Bool) : WalkState :=
  if 0 < dur ∧ needStop = false then
    if crossesBoundary pos a then
      { pos := pos, act := a, dur := dur - 1, needStop := true,
        newFlag := decide (dur - 1 ≤ 0), label := 4 }
    else
      { pos := (pos.1 + (moveDelta a).1, pos.2 + (moveDelta a).2), act := a, dur := dur - 1,
        needStop := needStop, newFlag := decide (dur - 1 ≤ 0), label := a }
  else
    { pos := pos, act := a, dur := dur - 1, needStop := needStop,
      newFlag := decide (dur - 1 ≤ 0), label := 4 }

/-- One timestep t >= 1 of the sampler (lines 314-365).  When a new action
segment starts, the rejection loop (modelled by `List.find?` over the
offered proposals) picks the first boundary-valid action, `need_to_stop`
is cleared and a fresh Poisson duration is drawn; then the in-segment
update runs. -/
def walkStep (r : WalkRand) (t : ℕ) (s : WalkState) : Option WalkState :=
  if s.newFlag then
    match (r.props t).find? (fun a => validActionB s.pos a.val) with
    | none => none
    | some a => some (applyMove s.pos a.val ((r.durs t : ℕ) : ℤ) false)
  else
    some (applyMove s.pos s.act s.dur s.needStop)

/-- State at t = 0 (lines 310-313): random initial position, label left at
the numpy-zeros default 0, and `new_continue_action_flag` set so that a
fresh action is sampled at t = 1. -/
def walkInit (r : WalkRand) : WalkState :=
  { pos := (((r.initPos.1 : ℕ) : ℤ), ((r.initPos.2 : ℕ) : ℤ)),
    act := 0, dur := 0, needStop := false, newFlag := true, label := 0 }

/-- The sampler's state after t timesteps (none when the rejection loop
failed to find a valid proposal at some resampling step). -/
def walkState (r : WalkRand) : ℕ → Option WalkState
  | 0 => some (walkInit r)
  | t + 1 => (walkState r t).bind (walkStep r (t + 1))

/-- Run n further steps from state s at time t, collecting the visited
states in order. -/
def walkRun (r : WalkRand) : WalkState → ℕ → ℕ → Option (List WalkState)
  | _, _, 0 => some []
  | s, t, n + 1 =>
    (walkStep r (t + 1) s).bind (fun s2 => (walkRun r s2 (t + 1) n).map (fun l => s2 :: l))

/-- Trace of one sample's walk over a whole horizon: the list of states at
timesteps 0, 1, ..., T-1. -/
def walkTrace (r : WalkRand) : ℕ → Option (List WalkState)
  | 0 => some []
  | n + 1 => (walkRun r (walkInit r) 0 n).map (fun l => walkInit r :: l)

/-- Sequencing of per-sample optional results over a list (the batch loop
of line 309: all samples must succeed). -/
def seqOption {α β : Type} (f : α → Option β) : List α → Option (List β)
  | [] => some []
  | a :: as =>
    match f a, seqOption f as with
    | some b, some bs => some (b :: bs)
    | _, _ => none

/-- GTM_SM.random_walk (lines 304-373): the batch of per-sample traces.
The one-hot action tensor is recoverable from the emitted labels (lines
367-371) and is derived where needed rather than stored. -/
def random_walk (batch total : ℕ) (tapes : ℕ → WalkRand) : Option (List (List WalkState)) :=
  seqOption (fun i => walkTrace (tapes i) total) (List.range batch)

/-- Position stays on the 9 x 9 grid. -/
def inGrid (p : ℤ × ℤ) : Prop :=
  0 ≤ p.1 ∧ p.1 ≤ 8 ∧ 0 ≤ p.2 ∧ p.2 ≤ 8

instance (p : ℤ × ℤ) : Decidable (inGrid p) := by
  unfold inGrid; infer_instance

/-- Relation between consecutive timesteps: a stop label holds the
position exactly. -/
def stopHolds (p q : WalkState) : Prop :=
  q.label = 4 → q.pos = p.pos

/-! ## Importance-weight and mixture-density arithmetic

These definitions embed the per-sample, per-timestep arithmetic shared by
the training branch (src/model.py lines 250-266) and the inference branch
(lines 275-288) of GTM_SM.forward, over an arbitrary linear ordered field
standing in for floating-point values. -/

section FieldDefs

variable {R : Type} [LinearOrderedField R]

/-- Squared neighbor distances (lines 250 and 275): for each retrieved
neighbor k, the sum over state coordinates of the squared difference
between the neighbor's observation-phase spatial state and the
prediction-phase spatial state. -/
def dk2 (sdim : ℕ) (mem : ℕ → ℕ → R) (pred : ℕ → R) : ℕ → R :=
  fun k => ∑ j ∈ Finset.range sdim, (mem k j - pred j) ^ 2

/-- Importance weights (lines 251 and 276): wk = 1 / (dk2 + delta). -/
def wk (delta : R) (d : ℕ → R) : ℕ → R :=
  fun k => 1 / (d k + delta)

/-- Total weight over the K retrieved neighbors (torch.sum(wk)). -/
def sumWk (K : ℕ) (delta : R) (d : ℕ → R) : R :=
  ∑ k ∈ Finset.range K, wk delta d k

/-- Normalized importance weights (lines 252 and 277). -/
def normalized_wk (K : ℕ) (delta : R) (d : ℕ → R) : ℕ → R :=
  fun k => wk delta d k / sumWk K delta d

/-- Cumulative distribution of the normalized weights (line 278). -/
def cumsumWk (f : ℕ → R) (k : ℕ) : R :=
  ∑ j ∈ Finset.range (k + 1), f j

/-- The inference-time categorical selection loop (lines 281-288): scan
k = 0, ..., K-1 and stop at the first k whose cumulative weight exceeds
the uniform draw (for k >= 1 the source also re-checks that the previous
cumulative weight does not exceed it); if no break fires the loop variable
retains its final value K - 1. -/
def selectComponent (K : ℕ) (cum : ℕ → R) (u : R) : ℕ :=
  match (List.range K).find? (fun k =>
      if k = 0 then decide (u < cum 0)
      else decide (u < cum k) && decide (cum (k - 1) ≤ u)) with
  | some k => k
  | none => K - 1

/-- Maximum over the K mixture components (torch.max along dim 1, line
263); meaningful for K >= 1, matching torch.max which rejects an empty
dimension. -/
def rangeMax (K : ℕ) (f : ℕ → R) : R :=
  ((List.range K).map f).foldl max (f 0)

/-- The stabilized log-sum-exp of lines 263-266: subtract the per-sample
maximum component, exponentiate, sum, take the log, and add the maximum
back. The log and exp primitives are passed in so the same definition
serves the real-valued claims and the executable rational model. -/
def lseStableF (logF expF : R → R) (K : ℕ) (f : ℕ → R) : R :=
  rangeMax K f + logF (∑ k ∈ Finset.range K, expF (f k - rangeMax K f))

end FieldDefs

/-- Squared Euclidean distance as the specification words it, for
comparison with the source-derived dk2. -/
def sqEuclideanDist (sdim : ℕ) (u v : ℕ → ℝ) : ℝ :=
  ∑ j ∈ Finset.range sdim, (u j - v j) ^ 2

/-! ## Spatial-state transition (src/model.py lines 139-168)

The learned sub-networks of GTM_SM are inputs of the computation (their
parameters live outside the forward pass); they are collected in `Nets`.
Batched tensors of shape (batch, dim) are functions of sample index and
coordinate. -/

structure Nets (R : Type) where
  enc_zt : (ℕ → ℕ → ℕ → R) → (ℕ → R)
  enc_zt_mean : (ℕ → R) → (ℕ → R)
  enc_zt_std : (ℕ → R) → (ℕ → R)
  enc_st_matrix : (ℕ → R) → (ℕ → R)
  enc_st_sigmoid : (ℕ → R) → (ℕ → R)
  dec : (ℕ → R) → (ℕ → ℕ → ℕ → R)

section StDefs

variable {R : Type} [LinearOrderedField R]

/-- One application of the transition expression of lines 143-146 (and,
verbatim again, lines 151-165): previous state plus the action projection
gated elementwise by the sigmoid network of the pre-gated next state, plus
the drawn noise. -/
def st_obs_step (nets : Nets R) (noise : ℕ → ℕ → R) (act : ℕ → ℕ → R)
    (prev : ℕ → ℕ → R) : ℕ → ℕ → R :=
  fun i c =>
    prev i c + nets.enc_st_matrix (act i) c *
      nets.enc_st_sigmoid (fun c2 => prev i c2 + nets.enc_st_matrix (act i) c2) c +
    noise i c

/-- The observation-phase loop of lines 139-147, building the list
st_observation_list by appending one state per timestep: at t = 0 the
state is torch.rand - 1, and afterwards the transition expression applied
to the previous list entry, with noise drawn with standard deviation
r_std (modelled as r_std times a unit draw from the tape). -/
def st_observation_build (nets : Nets R) (r_std : R) (rand0 : ℕ → ℕ → R)
    (noise : ℕ → ℕ → ℕ → R) (acts : ℕ → ℕ → ℕ → R) : ℕ → List (ℕ → ℕ → R)
  | 0 => []
  | t + 1 =>
    let prev := st_observation_build nets r_std rand0 noise acts t
    let cur : ℕ → ℕ → R :=
      if t = 0 then fun i c => rand0 i c - 1
      else
        st_obs_step nets (fun i c => r_std * noise t i c) (fun i c => acts i t c)
          (prev.getD (t - 1) (fun _ _ => 0))
    prev ++ [cur]

/-- The prediction-phase loop of lines 151-166: same transition
expression, seeded at t = 0 by the last entry of st_observation_list
(st_observation_list[-1]) and afterwards by the previous prediction entry,
using actions indexed at t + observe_dim. -/
def st_prediction_build (nets : Nets R) (r_std : R) (noiseP : ℕ → ℕ → ℕ → R)
    (acts : ℕ → ℕ → ℕ → R) (stObsL : List (ℕ → ℕ → R)) (observe : ℕ) :
    ℕ → List (ℕ → ℕ → R)
  | 0 => []
  | t + 1 =>
    let prev := st_prediction_build nets r_std noiseP acts stObsL observe t
    let base : ℕ → ℕ → R :=
      if t = 0 then stObsL.getD (stObsL.length - 1) (fun _ _ => 0)
      else prev.getD (t - 1) (fun _ _ => 0)
    prev ++
      [st_obs_step nets (fun i c => r_std * noiseP t i c) (fun i c => acts i (t + observe) c)
        base]

end StDefs

/-- The sigmoid activation over the reals. -/
noncomputable def sigmoidR (x : ℝ) : ℝ :=
  1 / (1 + Real.exp (-x))

/-- The bias-free linear action projection enc_st_matrix of lines 78-79
(nn.Linear(a_dim, s_dim, bias=False)) with weight matrix M. -/
def enc_st_matrix_real (a_dim : ℕ) (M : ℕ → ℕ → ℝ) (v : ℕ → ℝ) : ℕ → ℝ :=
  fun i => ∑ j ∈ Finset.range a_dim, M i j * v j

/-- The gate network enc_st_sigmoid of lines 81-85: Linear(s_dim, 5) then
Tanh then Linear(5, s_dim) then Sigmoid. -/
noncomputable def enc_st_sigmoid_real (s_dim : ℕ) (W1 : ℕ → ℕ → ℝ) (b1 : ℕ → ℝ)
    (W2 : ℕ → ℕ → ℝ) (b2 : ℕ → ℝ) (v : ℕ → ℝ) : ℕ → ℝ :=
  fun i =>
    sigmoidR ((∑ j ∈ Finset.range 5,
      W2 i j * Real.tanh ((∑ c ∈ Finset.range s_dim, W1 j c * v c) + b1 j)) + b2 i)

/-- The transition rule as the specification words it:
s_t = s_prev + M a ⊙ sigma (s_prev + M a) + epsilon. -/
def specTransitionRule (Mf gf : (ℕ → ℝ) → (ℕ → ℝ)) (s a e : ℕ → ℝ) : ℕ → ℝ :=
  fun c => s c + Mf a c * gf (fun c2 => s c2 + Mf a c2) c + e c

noncomputable def transitionNetsInstance : Nets ℝ :=
  { enc_zt := fun _ _ => 0
    enc_zt_mean := fun _ _ => 0
    enc_zt_std := fun _ _ => 0
    enc_st_matrix := enc_st_matrix_real 5 (fun _ _ => 0)
    enc_st_sigmoid := enc_st_sigmoid_real 2 (fun _ _ => 0) (fun _ => 0) (fun _ _ => 0)
      (fun _ => 0)
    dec := fun _ _ _ _ => 0 }

/-! ## The GTM_SM module: configuration, constructor, and forward
(src/model.py lines 47-301)

The configuration record holds the constructor arguments of GTM_SM
(lines 48-63) plus the nn.Module training flag. -/

structure GTM_SM (R : Type) where
  x_dim : ℕ
  a_dim : ℕ
  s_dim : ℕ
  z_dim : ℕ
  observe_dim : ℕ
  total_dim : ℕ
  r_std : R
  k_nearest_neighbour : ℕ
  delta : R
  kl_samples : ℕ
  batch_size : ℕ
  training : Bool
deriving DecidableEq

/-- The error class the specification prescribes for invalid
configurations. -/
inductive ConfigurationError : Type
  | invalidConfiguration : ConfigurationError
deriving DecidableEq

/-- GTM_SM.__init__ (lines 48-63): the constructor only stores its
arguments and builds the fixed-architecture sub-networks; it contains no
validation and no raise, so the embedded constructor always returns ok.
The Except wrapper records where a raised ConfigurationError would
surface if the constructor had one. -/
def GTM_SM_init {R : Type} [LinearOrderedField R]
    (x_dim a_dim s_dim z_dim observe_dim total_dim : ℕ) (r_std : R)
    (k_nearest_neighbour : ℕ) (delta : R) (kl_samples batch_size : ℕ) :
    Except ConfigurationError (GTM_SM R) :=
  Except.ok
    { x_dim := x_dim, a_dim := a_dim, s_dim := s_dim, z_dim := z_dim,
      observe_dim := observe_dim, total_dim := total_dim, r_std := r_std,
      k_nearest_neighbour := k_nearest_neighbour, delta := delta, kl_samples := kl_samples,
      batch_size := batch_size, training := true }

/-- A tensor-like array: a shape and a lookup function from a full index
list to the element. -/
structure Tensor (R : Type) where
  shape : List ℕ
  data : List ℕ → R

/-- torch.unsqueeze(0) (line 99): prepend a batch dimension of size 1. -/
def unsqueeze0 {R : Type} (x : Tensor R) : Tensor R :=
  { shape := 1 :: x.shape, data := fun idx => x.data idx.tail }

/-- The input normalization of lines 98-99: a 3-D input is promoted to a
batch of one before any use of the input; anything else passes through. -/
def normalizeInput {R : Type} (x : Tensor R) : Tensor R :=
  if x.shape.length = 3 then unsqueeze0 x else x

/-- Element lookup with right-aligned broadcasting (the semantics of
torch.masked_select's implicit broadcast at lines 179, 201, 222): a
dimension of size 1 repeats its single entry. -/
def atIdx {R : Type} (x : Tensor R) (idx : List ℕ) : R :=
  x.data (List.zipWith (fun d i => if d = 1 then 0 else i) x.shape
    (idx.drop (idx.length - x.shape.length)))

/-- Two tensor dimensions are broadcast-compatible when they are equal or
one of them is 1. -/
def dimBroadcastOK (a b : ℕ) : Bool :=
  a == b || a == 1 || b == 1

/-- Right-aligned broadcastability of two shapes; torch.masked_select
raises when the input and the (batch_size, 3, 32, 32) index mask are not
broadcastable. -/
def broadcastOK (s1 s2 : List ℕ) : Bool :=
  (List.zip s1.reverse s2.reverse).all (fun p => dimBroadcastOK p.1 p.2)

/-- The failures a forward call can raise before completing. -/
inductive ForwardError : Type
  | rejectionLoopStuck : ForwardError
  | emptyObservationCat : ForwardError
  | actionIndexOutOfRange : ForwardError
  | emptyPredictionCat : ForwardError
  | shapeMismatch : ForwardError
  | knnTooFewPoints : ForwardError
deriving DecidableEq

/-- Randomness and external collaborators consumed by one forward call:
the numpy tapes of the trajectory sampler, the torch draws (initial state,
transition noise, reparameterization draws, the inference categorical
uniform), the FLANN nearest-neighbour oracle (sample, timestep, k to
retrieved observation timestep; FLANN guarantees the index is within the
observation horizon), and the torch.log / torch.exp primitives. -/
structure ForwardRand (R : Type) where
  walkTape : ℕ → WalkRand
  rand0 : ℕ → ℕ → R
  noiseObs : ℕ → ℕ → ℕ → R
  noisePred : ℕ → ℕ → ℕ → R
  epsRecon : ℕ → ℕ → ℕ → R
  epsCluster : ℕ → ℕ → ℕ → ℕ → R
  epsInf : ℕ → ℕ → ℕ → R
  uCat : ℕ → ℕ → R
  knn : ℕ → ℕ → ℕ → ℕ
  logF : R → R
  expF : R → R

/-- Fallback state for out-of-range trace lookups. -/
def walkDefaultState : WalkState :=
  { pos := (0, 0), act := 0, dur := 0, needStop := false, newFlag := false, label := 0 }

section ForwardDefs

variable {R : Type} [LinearOrderedField R]

/-- One-hot encoding of an action label (lines 367-371). -/
def onehot (label : ℕ) : ℕ → R :=
  fun a => if a = label then 1 else 0

/-- The one-hot action tensor entry for sample i at timestep t, derived
from the sampled labels. -/
def actionVec (walks : List (List WalkState)) (i t : ℕ) : ℕ → R :=
  onehot ((walks.getD i []).getD t walkDefaultState).label

/-- The 8 x 8 patch of sample i at timestep t (lines 172-179): the mask
selects rows 3h .. 3h+7 and columns 3w .. 3w+7 at the sampled grid
position (h, w). -/
def patchAtPos (x : Tensor R) (walks : List (List WalkState)) (i t : ℕ) :
    ℕ → ℕ → ℕ → R :=
  fun c pi2 pj =>
    atIdx x [i, c, 3 * ((walks.getD i []).getD t walkDefaultState).pos.1.toNat + pi2,
      3 * ((walks.getD i []).getD t walkDefaultState).pos.2.toNat + pj]

/-- Encoder mean head applied to the patch at timestep t (lines 180-181). -/
def ztMeanAt (nets : Nets R) (x : Tensor R) (walks : List (List WalkState)) (t : ℕ) :
    ℕ → ℕ → R :=
  fun i => nets.enc_zt_mean (nets.enc_zt (patchAtPos x walks i t))

/-- Encoder std head applied to the patch at timestep t (lines 180, 182). -/
def ztStdAt (nets : Nets R) (x : Tensor R) (walks : List (List WalkState)) (t : ℕ) :
    ℕ → ℕ → R :=
  fun i => nets.enc_zt_std (nets.enc_zt (patchAtPos x walks i t))

/-- The reparameterized sample of lines 396-399: eps * std + mean. -/
def reparam_sample (eps std mean : ℕ → R) : ℕ → R :=
  fun c => eps c * std c + mean c

/-- The literal 2 * 3.1415926535 of lines 376 and 382. -/
def twoPiConst : R :=
  2 * (31415926535 / 10000000000)

/-- GTM_SM._log_gaussian_pdf (lines 375-379), with the log primitive
passed in. -/
def log_gaussian_pdf (logF : R → R) (z_dim : ℕ) (z mean std : ℕ → R) : R :=
  (- ∑ c ∈ Finset.range z_dim, (z c - mean c) ^ 2 / (std c) ^ 2 / 2) +
    (- ((z_dim : R) / 2) * logF twoPiConst - ∑ c ∈ Finset.range z_dim, logF (std c))

/-- The per-sample, per-timestep KL contribution of lines 246-266:
neighbor distances, normalized importance weights, a kl_samples-fold
reparameterized draw from the predicted Gaussian, the mixture component
log-densities offset by the log weights, the stabilized log-sum-exp, and
the mean over draws of log q minus the mixture log-density. -/
def kldTermAt (env : ForwardRand R) (m : GTM_SM R)
    (stObsL stPredL ztMObs ztSObs ztMPred ztSPred : List (ℕ → ℕ → R)) (i t : ℕ) : R :=
  let d2 := dk2 m.s_dim (fun k => stObsL.getD (env.knn i t k) (fun _ _ => 0) i)
    (stPredL.getD t (fun _ _ => 0) i)
  let nw := normalized_wk m.k_nearest_neighbour m.delta d2
  let mean := ztMPred.getD t (fun _ _ => 0) i
  let std := ztSPred.getD t (fun _ _ => 0) i
  let zs : ℕ → ℕ → R := fun d => reparam_sample (env.epsCluster i t d) std mean
  let logq : ℕ → R := fun d => log_gaussian_pdf env.logF m.z_dim (zs d) mean std
  let logp : ℕ → ℕ → R := fun d k =>
    log_gaussian_pdf env.logF m.z_dim (zs d) (ztMObs.getD (env.knn i t k) (fun _ _ => 0) i)
      (ztSObs.getD (env.knn i t k) (fun _ _ => 0) i) + env.logF (nw k)
  (∑ d ∈ Finset.range m.kl_samples,
    (logq d - lseStableF env.logF env.expF m.k_nearest_neighbour (logp d))) /
    (m.kl_samples : R)

/-- The decoded reconstruction of prediction timestep t in training mode
(lines 214, 223): decode a single reparameterized sample of the predicted
latent. -/
def reconAt (nets : Nets R) (env : ForwardRand R) (ztMPred ztSPred : List (ℕ → ℕ → R))
    (t : ℕ) : ℕ → ℕ → ℕ → ℕ → R :=
  fun i => nets.dec (reparam_sample (env.epsRecon t i) (ztSPred.getD t (fun _ _ => 0) i)
    (ztMPred.getD t (fun _ _ => 0) i))

/-- The reconstruction error accumulated at prediction timestep t (lines
213-224): the sum of squared errors (_nll_gauss, line 421-423) between the
decoded sample and the ground-truth patch at the sampled position. -/
def nllTermAt (nets : Nets R) (env : ForwardRand R) (m : GTM_SM R) (x : Tensor R)
    (walks : List (List WalkState)) (ztMPred ztSPred : List (ℕ → ℕ → R)) (t : ℕ) : R :=
  ∑ i ∈ Finset.range m.batch_size, ∑ c ∈ Finset.range 3,
    ∑ p ∈ Finset.range 8, ∑ q ∈ Finset.range 8,
      (reconAt nets env ztMPred ztSPred t i c p q -
        patchAtPos x walks i (t + m.observe_dim) c p q) ^ 2

/-- The synthesized patch of prediction timestep t for sample i in
inference mode (lines 271-293): importance weights from the retrieved
neighbor distances, inverse-CDF categorical selection with one uniform
draw, a reparameterized sample from the selected observation-phase
Gaussian, decoded. -/
def inferencePatchAt (nets : Nets R) (env : ForwardRand R) (m : GTM_SM R)
    (stObsL stPredL ztMObs ztSObs : List (ℕ → ℕ → R)) (i t : ℕ) : ℕ → ℕ → ℕ → R :=
  let d2 := dk2 m.s_dim (fun k => stObsL.getD (env.knn i t k) (fun _ _ => 0) i)
    (stPredL.getD t (fun _ _ => 0) i)
  let nw := normalized_wk m.k_nearest_neighbour m.delta d2
  let sel := selectComponent m.k_nearest_neighbour (cumsumWk nw) (env.uCat i t)
  nets.dec (reparam_sample (env.epsInf i t)
    (ztSObs.getD (env.knn i t sel) (fun _ _ => 0) i)
    (ztMObs.getD (env.knn i t sel) (fun _ _ => 0) i))

end ForwardDefs

/-- The tuple returned by a successful forward call (line 301): the two
losses, the two spatial-state lists, the reconstructed-patch list, and the
per-sample position sequences. -/
structure ForwardOutput (R : Type) where
  kld_loss : R
  nll_loss : R
  st_observation_list : List (ℕ → ℕ → R)
  st_prediction_list : List (ℕ → ℕ → R)
  xt_prediction_list : List (ℕ → ℕ → ℕ → ℕ → R)
  position : List (List (ℤ × ℤ))

section ForwardDefs2

variable {R : Type} [LinearOrderedField R]

/-- The training-mode output of forward (lines 191-266 and 301). -/
def trainingOutput (nets : Nets R) (m : GTM_SM R) (x : Tensor R) (env : ForwardRand R)
    (walks : List (List WalkState)) : ForwardOutput R :=
  let acts : ℕ → ℕ → ℕ → R := fun i t => actionVec walks i t
  let stObsL := st_observation_build nets m.r_std env.rand0 env.noiseObs acts m.observe_dim
  let stPredL := st_prediction_build nets m.r_std env.noisePred acts stObsL m.observe_dim
    (m.total_dim - m.observe_dim)
  let ztMObs := (List.range m.observe_dim).map (fun t => ztMeanAt nets x walks t)
  let ztSObs := (List.range m.observe_dim).map (fun t => ztStdAt nets x walks t)
  let ztMPred := (List.range (m.total_dim - m.observe_dim)).map
    (fun t => ztMeanAt nets x walks (t + m.observe_dim))
  let ztSPred := (List.range (m.total_dim - m.observe_dim)).map
    (fun t => ztStdAt nets x walks (t + m.observe_dim))
  { kld_loss := ∑ i ∈ Finset.range m.batch_size,
      ∑ t ∈ Finset.range (m.total_dim - m.observe_dim),
        kldTermAt env m stObsL stPredL ztMObs ztSObs ztMPred ztSPred i t
    nll_loss := ∑ t ∈ Finset.range (m.total_dim - m.observe_dim),
      nllTermAt nets env m x walks ztMPred ztSPred t
    st_observation_list := stObsL
    st_prediction_list := stPredL
    xt_prediction_list := (List.range (m.total_dim - m.observe_dim)).map
      (fun t => reconAt nets env ztMPred ztSPred t)
    position := walks.map (fun l => l.map WalkState.pos) }

/-- The inference-mode output of forward (lines 267-297 and 301): zero
losses, and synthesized patches for the prediction horizon. -/
def inferenceOutput (nets : Nets R) (m : GTM_SM R) (x : Tensor R) (env : ForwardRand R)
    (walks : List (List WalkState)) : ForwardOutput R :=
  let acts : ℕ → ℕ → ℕ → R := fun i t => actionVec walks i t
  let stObsL := st_observation_build nets m.r_std env.rand0 env.noiseObs acts m.observe_dim
  let stPredL := st_prediction_build nets m.r_std env.noisePred acts stObsL m.observe_dim
    (m.total_dim - m.observe_dim)
  let ztMObs := (List.range m.observe_dim).map (fun t => ztMeanAt nets x walks t)
  let ztSObs := (List.range m.observe_dim).map (fun t => ztStdAt nets x walks t)
  { kld_loss := 0
    nll_loss := 0
    st_observation_list := stObsL
    st_prediction_list := stPredL
    xt_prediction_list := (List.range (m.total_dim - m.observe_dim)).map
      (fun t i => inferencePatchAt nets env m stObsL stPredL ztMObs ztSObs i t)
    position := walks.map (fun l => l.map WalkState.pos) }

/-- GTM_SM.forward on the configuration already holding the horizon to
use (the body of lines 101-297): sample the batch of trajectories, build
both spatial-state lists (failing where the source would raise: an empty
observation list at the torch.cat of line 148, action indexing past the
horizon at line 143, an empty prediction list at the torch.cat of line
167, a non-broadcastable input at the masked_select of line 179, and the
pyflann nn_index assertion npts >= num_neighbors at line 240 when the
observation horizon holds fewer points than the K requested neighbours),
then produce the training or inference output. -/
def forwardCore (nets : Nets R) (m : GTM_SM R) (x : Tensor R) (env : ForwardRand R) :
    Except ForwardError (ForwardOutput R) :=
  match random_walk m.batch_size m.total_dim env.walkTape with
  | none => Except.error ForwardError.rejectionLoopStuck
  | some walks =>
    if m.observe_dim = 0 then Except.error ForwardError.emptyObservationCat
    else if m.total_dim < m.observe_dim then Except.error ForwardError.actionIndexOutOfRange
    else if m.total_dim - m.observe_dim = 0 then Except.error ForwardError.emptyPredictionCat
    else if broadcastOK x.shape [m.batch_size, 3, 32, 32] = false then
      Except.error ForwardError.shapeMismatch
    else if m.observe_dim < m.k_nearest_neighbour then
      Except.error ForwardError.knnTooFewPoints
    else if m.training then Except.ok (trainingOutput nets m x env walks)
    else Except.ok (inferenceOutput nets m x env walks)

/-- GTM_SM.forward (lines 94-301) including its mutation of the module's
total_dim field: in inference mode the field is set to 512 on entry (lines
95-97) and restored only when the body runs to completion (lines 298-299);
a 3-D input is promoted to a batch of one (lines 98-99).  The returned
pair is (result or raised error, the module configuration as observable
after the call). -/
def forward (nets : Nets R) (m : GTM_SM R) (x : Tensor R) (env : ForwardRand R) :
    Except ForwardError (ForwardOutput R) × GTM_SM R :=
  let m1 := if m.training then m else { m with total_dim := 512 }
  let res := forwardCore nets m1 (normalizeInput x) env
  (res,
    if m.training = false ∧ res.isOk = true then { m1 with total_dim := m.total_dim } else m1)

end ForwardDefs2

/-- All-zero learned networks over the rationals, for concrete runs. -/
def qZeroNets : Nets ℚ :=
  { enc_zt := fun _ _ => 0
    enc_zt_mean := fun _ _ => 0
    enc_zt_std := fun _ _ => 0
    enc_st_matrix := fun _ _ => 0
    enc_st_sigmoid := fun _ _ => 0
    dec := fun _ _ _ _ => 0 }

/-- A concrete randomness environment over the rationals: the walk tape
offers every action at each resampling step (so the rejection loop always
finds a valid one) with unit segment durations, and all torch draws are
zero. -/
def qEnv : ForwardRand ℚ :=
  { walkTape := fun _ =>
      { initPos := (4, 4), props := fun _ => [0, 1, 2, 3], durs := fun _ => 1 }
    rand0 := fun _ _ => 0
    noiseObs := fun _ _ _ => 0
    noisePred := fun _ _ _ => 0
    epsRecon := fun _ _ _ => 0
    epsCluster := fun _ _ _ _ => 0
    epsInf := fun _ _ _ => 0
    uCat := fun _ _ => 0
    knn := fun _ _ _ => 0
    logF := fun _ => 0
    expF := fun _ => 0 }

/-- A concrete inference-mode configuration (training = False), with an
observation horizon of 1 and a configured total horizon of 288. -/
def qModelInference : GTM_SM ℚ :=
  { x_dim := 8, a_dim := 5, s_dim := 2, z_dim := 16, observe_dim := 1, total_dim := 288,
    r_std := 0, k_nearest_neighbour := 5, delta := 1, kl_samples := 1, batch_size := 1,
    training := false }

/-- A concrete inference-mode configuration whose observation horizon (5)
holds at least as many points as the K = 5 requested neighbours, so the
pyflann assertion passes and the forward call runs to completion. -/
def qModelInferenceValid : GTM_SM ℚ :=
  { x_dim := 8, a_dim := 5, s_dim := 2, z_dim := 16, observe_dim := 5, total_dim := 288,
    r_std := 0, k_nearest_neighbour := 5, delta := 1, kl_samples := 1, batch_size := 1,
    training := false }

/-- An input whose spatial extent cannot broadcast against the
(batch, 3, 32, 32) patch mask: masked_select raises on it. -/
def qBadInput : Tensor ℚ :=
  { shape := [1, 3, 16, 16], data := fun _ => 0 }

/-- A well-shaped input. -/
def qGoodInput : Tensor ℚ :=
  { shape := [1, 3, 32, 32], data := fun _ => 0 }

lemma applyMove_props (pos : ℤ × ℤ) (a : ℕ) (dur : ℤ) (needStop : Bool)
    (hg : inGrid pos) (ha : a < 4) :
    inGrid (applyMove pos a dur needStop).pos ∧
    (applyMove pos a dur needStop).act = a ∧
    ((applyMove pos a dur needStop).label = 4 → (applyMove pos a dur needStop).pos = pos) := by
  obtain ⟨h1, h2, h3, h4⟩ := hg
  unfold applyMove
  split_ifs with hc hb
  · exact ⟨⟨h1, h2, h3, h4⟩, rfl, fun _ => rfl⟩
  · refine ⟨?_, rfl, fun hlab => absurd hlab (show a ≠ 4 by omega)⟩
    interval_cases a <;> simp_all [crossesBoundary, moveDelta, inGrid] <;> omega
  · exact ⟨⟨h1, h2, h3, h4⟩, rfl, fun _ => rfl⟩

lemma walkStep_inv (r : WalkRand) (t : ℕ) (s s2 : WalkState)
    (hg : inGrid s.pos) (ha : s.act < 4) (h : walkStep r t s = some s2) :
    inGrid s2.pos ∧ s2.act < 4 ∧ stopHolds s s2 := by
  unfold walkStep at h
  by_cases hn : s.newFlag = true
  · rw [if_pos hn] at h
    cases hf : (r.props t).find? (fun a => validActionB s.pos a.val) with
    | none => rw [hf] at h; exact absurd h (by simp)
    | some a =>
      rw [hf] at h
      injection h with h
      obtain ⟨hgrid, hact, hstop⟩ :=
        applyMove_props s.pos a.val ((r.durs t : ℕ) : ℤ) false hg a.isLt
      rw [h] at hgrid hact hstop
      exact ⟨hgrid, by rw [hact]; exact a.isLt, hstop⟩
  · rw [if_neg hn] at h
    injection h with h
    obtain ⟨hgrid, hact, hstop⟩ := applyMove_props s.pos s.act s.dur s.needStop hg ha
    rw [h] at hgrid hact hstop
    exact ⟨hgrid, by rw [hact]; exact ha, hstop⟩

lemma walkRun_inv (r : WalkRand) :
    ∀ (n : ℕ) (s : WalkState) (t : ℕ) (l : List WalkState),
      walkRun r s t n = some l → inGrid s.pos → s.act < 4 →
      (∀ u ∈ l, inGrid u.pos ∧ u.act < 4) ∧ List.Chain' stopHolds (s :: l) := by
  intro n
  induction n with
  | zero =>
    intro s t l h hg ha
    simp only [walkRun, Option.some.injEq] at h
    subst h
    exact ⟨by simp, by simp⟩
  | succ n ih =>
    intro s t l h hg ha
    simp only [walkRun] at h
    cases hstep : walkStep r (t + 1) s with
    | none => rw [hstep] at h; exact absurd h (by simp)
    | some s2 =>
      rw [hstep, Option.some_bind] at h
      cases hrun : walkRun r s2 (t + 1) n with
      | none => rw [hrun] at h; exact absurd h (by simp)
      | some l2 =>
        rw [hrun, Option.map_some'] at h
        obtain rfl : s2 :: l2 = l := Option.some.inj h
        obtain ⟨hg2, ha2, hsh⟩ := walkStep_inv r (t + 1) s s2 hg ha hstep
        obtain ⟨hmem, hchain⟩ := ih s2 (t + 1) l2 hrun hg2 ha2
        refine ⟨?_, ?_⟩
        · intro u hu
          rcases List.mem_cons.mp hu with h' | h'
          · subst h'; exact ⟨hg2, ha2⟩
          · exact hmem u h'
        · exact List.chain'_cons.mpr ⟨hsh, hchain⟩

lemma walkInit_inGrid (r : WalkRand) : inGrid (walkInit r).pos := by
  have h1 := r.initPos.1.isLt
  have h2 := r.initPos.2.isLt
  simp only [walkInit, inGrid]
  constructor
  · omega
  constructor
  · omega
  constructor
  · omega
  · omega

lemma walkTrace_inv (r : WalkRand) (T : ℕ) (l : List WalkState)
    (h : walkTrace r T = some l) :
    (∀ u ∈ l, inGrid u.pos) ∧ List.Chain' stopHolds l := by
  cases T with
  | zero =>
    simp only [walkTrace, Option.some.injEq] at h
    subst h
    exact ⟨by simp, by simp⟩
  | succ n =>
    simp only [walkTrace] at h
    cases hrun : walkRun r (walkInit r) 0 n with
    | none => rw [hrun] at h; exact absurd h (by simp)
    | some l2 =>
      rw [hrun, Option.map_some'] at h
      obtain rfl : walkInit r :: l2 = l := Option.some.inj h
      obtain ⟨hmem, hchain⟩ :=
        walkRun_inv r n (walkInit r) 0 l2 hrun (walkInit_inGrid r) (Nat.succ_pos 3)
      refine ⟨?_, hchain⟩
      intro u hu
      rcases List.mem_cons.mp hu with h' | h'
      · subst h'; exact walkInit_inGrid r
      · exact (hmem u h').1

lemma seqOption_mem {α β : Type} (f : α → Option β) :
    ∀ (as : List α) (bs : List β), seqOption f as = some bs →
      ∀ b ∈ bs, ∃ a ∈ as, f a = some b := by
  intro as
  induction as with
  | nil =>
    intro bs h b hb
    simp only [seqOption, Option.some.injEq] at h
    subst h
    exact absurd hb (by simp)
  | cons a as ih =>
    intro bs h b hb
    simp only [seqOption] at h
    cases hfa : f a with
    | none => rw [hfa] at h; exact absurd h (by simp)
    | some b0 =>
      rw [hfa] at h
      cases hrest : seqOption f as with
      | none => rw [hrest] at h; exact absurd h (by simp)
      | some bs0 =>
        rw [hrest] at h
        simp only [Option.some.injEq] at h
        subst h
        rcases List.mem_cons.mp hb with h' | h'
        · subst h'; exact ⟨a, by simp, hfa⟩
        · obtain ⟨a2, ha2, hfa2⟩ := ih bs0 hrest b h'
          exact ⟨a2, by simp [ha2], hfa2⟩

/-- C1: every trajectory produced by random_walk, for any batch size and
any total horizon, keeps every position coordinate in the integer range
[0,8] at every timestep, and at every timestep whose emitted action label
is 4 (the stop label, forced whenever an attempted move would violate a
boundary) the position equals the position at the previous timestep
exactly. -/
theorem random_walk_position_invariant (batch total : ℕ) (tapes : ℕ → WalkRand)
    (walks : List (List WalkState)) (h : random_walk batch total tapes = some walks) :
    ∀ l ∈ walks, (∀ u ∈ l, inGrid u.pos) ∧ List.Chain' stopHolds l := by
  intro l hl
  obtain ⟨i, _, htrace⟩ := seqOption_mem _ (List.range batch) walks h l hl
  exact walkTrace_inv (tapes i) total l htrace

lemma applyMove_dur (pos : ℤ × ℤ) (a : ℕ) (dur : ℤ) (ns : Bool) :
    (applyMove pos a dur ns).dur = dur - 1 := by
  unfold applyMove
  split_ifs <;> rfl

lemma applyMove_stopped (pos : ℤ × ℤ) (a : ℕ) (dur : ℤ) :
    applyMove pos a dur true =
      { pos := pos, act := a, dur := dur - 1, needStop := true,
        newFlag := decide (dur - 1 ≤ 0), label := 4 } := by
  unfold applyMove
  rw [if_neg (by simp)]

lemma walkState_succ (r : WalkRand) (t : ℕ) :
    walkState r (t + 1) = (walkState r t).bind (walkStep r (t + 1)) := rfl

/-- C7: when a move would cross the grid boundary mid-segment, the sampler
forces the stop label (4) and holds the position for every remaining step
of the segment, and the drawn duration counter is decremented on every
step, including the forcibly-stopped ones, so the segment still drains its
full nominal duration (a new action is flagged for sampling only once the
counter reaches zero). Part one: the boundary-crossing step itself stops,
holds, sets need-to-stop, and decrements. Part two: every mid-segment step
decrements the counter by exactly one. Part three: from a stopped state,
all remaining steps of the segment emit label 4, hold the position, keep
draining, and flag a new action exactly when the counter is exhausted. -/
theorem forced_stop_drains_duration (r : WalkRand) (t : ℕ) (s : WalkState)
    (hs : walkState r t = some s) (hflag : s.newFlag = false) :
    (s.needStop = false → 0 < s.dur → crossesBoundary s.pos s.act = true →
      walkState r (t + 1) = some
        { pos := s.pos, act := s.act, dur := s.dur - 1, needStop := true,
          newFlag := decide (s.dur - 1 ≤ 0), label := 4 }) ∧
    (∀ s2, walkStep r (t + 1) s = some s2 → s2.dur = s.dur - 1) ∧
    (s.needStop = true → ∀ k : ℕ, (k : ℤ) < s.dur →
      walkState r (t + 1 + k) = some
        { pos := s.pos, act := s.act, dur := s.dur - ((k : ℤ) + 1), needStop := true,
          newFlag := decide (s.dur - ((k : ℤ) + 1) ≤ 0), label := 4 }) := by
  refine ⟨?_, ?_, ?_⟩
  · intro hns hdur hcross
    rw [walkState_succ, hs, Option.some_bind]
    unfold walkStep
    rw [if_neg (by rw [hflag]; exact Bool.false_ne_true)]
    unfold applyMove
    rw [if_pos ⟨hdur, hns⟩, if_pos hcross]
  · intro s2 h2
    unfold walkStep at h2
    rw [if_neg (by rw [hflag]; exact Bool.false_ne_true)] at h2
    obtain rfl : applyMove s.pos s.act s.dur s.needStop = s2 := Option.some.inj h2
    exact applyMove_dur _ _ _ _
  · intro hns
    intro k
    induction k generalizing t s with
    | zero =>
      intro hk
      rw [Nat.add_zero, walkState_succ, hs, Option.some_bind]
      unfold walkStep
      rw [if_neg (by rw [hflag]; exact Bool.false_ne_true)]
      rw [hns, applyMove_stopped]
      norm_num
    | succ k ih =>
      intro hk
      have hk0 : ((k : ℤ)) < s.dur := by push_cast at hk ⊢; omega
      have hprev := ih t s hs hflag hns hk0
      have hflag2 : (decide (s.dur - ((k : ℤ) + 1) ≤ 0)) = false := by
        rw [decide_eq_false_iff_not]
        push_cast at hk
        omega
      have hstep : t + 1 + (k + 1) = (t + 1 + k) + 1 := by omega
      rw [hstep, walkState_succ, hprev, Option.some_bind]
      unfold walkStep
      rw [if_neg (by rw [hflag2]; exact Bool.false_ne_true)]
      rw [applyMove_stopped]
      have hdur : s.dur - ((k : ℤ) + 1) - 1 = s.dur - (((k + 1 : ℕ) : ℤ) + 1) := by
        push_cast
        ring
      rw [hdur]

theorem random_walk_position_invariant_witness :
    (∀ u ∈ [({ pos := (4, 4), act := 0, dur := 0, needStop := false, newFlag := true,
                label := 0 } : WalkState),
             { pos := (4, 5), act := 0, dur := 1, needStop := false, newFlag := false,
                label := 0 },
             { pos := (4, 6), act := 0, dur := 0, needStop := false, newFlag := true,
                label := 0 }], inGrid u.pos) ∧
    List.Chain' stopHolds
      [({ pos := (4, 4), act := 0, dur := 0, needStop := false, newFlag := true,
          label := 0 } : WalkState),
       { pos := (4, 5), act := 0, dur := 1, needStop := false, newFlag := false, label := 0 },
       { pos := (4, 6), act := 0, dur := 0, needStop := false, newFlag := true, label := 0 }] :=
  random_walk_position_invariant 1 3
    (fun _ => { initPos := (4, 4), props := fun _ => [0], durs := fun _ => 2 })
    [[{ pos := (4, 4), act := 0, dur := 0, needStop := false, newFlag := true, label := 0 },
      { pos := (4, 5), act := 0, dur := 1, needStop := false, newFlag := false, label := 0 },
      { pos := (4, 6), act := 0, dur := 0, needStop := false, newFlag := true, label := 0 }]]
    (by decide) _ (by simp)

theorem forced_stop_drains_duration_witness :
    walkState { initPos := (0, 1), props := fun _ => [1], durs := fun _ => 3 } 3 =
      some { pos := (0, 0), act := 1, dur := 0, needStop := true, newFlag := true,
             label := 4 } := by
  have h := (forced_stop_drains_duration
    { initPos := (0, 1), props := fun _ => [1], durs := fun _ => 3 } 2
    { pos := (0, 0), act := 1, dur := 1, needStop := true, newFlag := false, label := 4 }
    (by decide) rfl).2.2 rfl 0 (by decide)
  simpa using h

/-- C2: for every sample and prediction timestep (the arithmetic is shared
verbatim by the training and inference branches), each retrieved
neighbor's importance weight equals 1 / (d^2 + delta) with d^2 the squared
Euclidean distance between the neighbor's observation-phase spatial state
and the prediction-phase spatial state, and, given delta > 0, the
normalized weights over the K >= 1 retrieved neighbors sum to exactly 1 as
exact reals. -/
theorem importance_weights_normalized (K sdim : ℕ) (hK : 0 < K)
    (mem : ℕ → ℕ → ℝ) (pred : ℕ → ℝ) (delta : ℝ) (hdelta : 0 < delta) :
    (∀ k, wk delta (dk2 sdim mem pred) k =
      1 / (sqEuclideanDist sdim (mem k) pred + delta)) ∧
    ∑ k ∈ Finset.range K, normalized_wk K delta (dk2 sdim mem pred) k = 1 := by
  have hd : ∀ k, 0 ≤ dk2 sdim mem pred k := by
    intro k
    exact Finset.sum_nonneg (fun j _ => sq_nonneg _)
  have hwk : ∀ k, 0 < wk delta (dk2 sdim mem pred) k := by
    intro k
    apply div_pos one_pos
    have := hd k
    linarith
  have hsum : 0 < sumWk K delta (dk2 sdim mem pred) :=
    Finset.sum_pos (fun k _ => hwk k) (Finset.nonempty_range_iff.mpr (Nat.pos_iff_ne_zero.mp hK))
  refine ⟨fun k => rfl, ?_⟩
  unfold normalized_wk
  rw [← Finset.sum_div]
  exact div_self (ne_of_gt hsum)

theorem importance_weights_normalized_witness :
    (∀ k, wk (1 : ℝ) (dk2 1 (fun _ _ => 0) (fun _ => 0)) k =
      1 / (sqEuclideanDist 1 ((fun _ _ => (0 : ℝ)) k) (fun _ => 0) + 1)) ∧
    ∑ k ∈ Finset.range 1, normalized_wk 1 (1 : ℝ) (dk2 1 (fun _ _ => 0) (fun _ => 0)) k = 1 :=
  importance_weights_normalized 1 1 Nat.one_pos (fun _ _ => 0) (fun _ => 0) 1 one_pos

/-- C3: the stabilized log-sum-exp used in the training KL term (subtract
the per-sample maximum component, exponentiate, sum, log, add the maximum
back) equals the naive log of the sum of exponentials of the components,
for every vector of K + 1 >= 1 component log-densities; over the reals the
identity is exact (no overflow can occur). -/
theorem logsumexp_stable_eq_naive (K : ℕ) (f : ℕ → ℝ) :
    lseStableF Real.log Real.exp (K + 1) f =
      Real.log (∑ k ∈ Finset.range (K + 1), Real.exp (f k)) := by
  have hpos : 0 < ∑ k ∈ Finset.range (K + 1), Real.exp (f k) :=
    Finset.sum_pos (fun k _ => Real.exp_pos (f k)) Finset.nonempty_range_succ
  unfold lseStableF
  rw [Finset.sum_congr rfl (fun k _ => Real.exp_sub (f k) (rangeMax (K + 1) f))]
  rw [← Finset.sum_div]
  rw [Real.log_div (ne_of_gt hpos) (Real.exp_ne_zero _)]
  rw [Real.log_exp]
  ring

lemma getD_snoc {α : Type} (l : List α) (c x : α) : (l ++ [c]).getD l.length x = c := by
  induction l with
  | nil => rfl
  | cons a as ih => simp [ih]

lemma getD_snoc_lt {α : Type} (l : List α) (c x : α) (i : ℕ) (h : i < l.length) :
    (l ++ [c]).getD i x = l.getD i x := by
  induction l generalizing i with
  | nil => exact absurd h (by simp)
  | cons a as ih =>
    cases i with
    | zero => rfl
    | succ i => exact ih i (by simpa using h)

lemma getD_snoc_eq {α : Type} (l : List α) (c x : α) (i : ℕ) (h : i = l.length) :
    (l ++ [c]).getD i x = c := by
  subst h
  exact getD_snoc l c x

section StLemmas

variable {R : Type} [LinearOrderedField R] (nets : Nets R) (r_std : R)
  (rand0 : ℕ → ℕ → R) (noise noiseP : ℕ → ℕ → ℕ → R) (acts : ℕ → ℕ → ℕ → R)
  (stObsL : List (ℕ → ℕ → R)) (observe : ℕ)

lemma st_observation_build_length (T : ℕ) :
    (st_observation_build nets r_std rand0 noise acts T).length = T := by
  induction T with
  | zero => rfl
  | succ T ih => simp [st_observation_build, ih]

lemma st_observation_build_stable (T t : ℕ) (h : t < T) :
    (st_observation_build nets r_std rand0 noise acts T).getD t (fun _ _ => 0) =
      (st_observation_build nets r_std rand0 noise acts (t + 1)).getD t (fun _ _ => 0) := by
  induction T with
  | zero => exact absurd h (Nat.not_lt_zero t)
  | succ T ih =>
    rcases Nat.lt_succ_iff_lt_or_eq.mp h with h2 | h2
    · rw [st_observation_build]
      rw [getD_snoc_lt _ _ _ t (by rw [st_observation_build_length]; exact h2)]
      exact ih h2
    · subst h2
      rfl

lemma st_observation_build_elem_zero (T : ℕ) (h : 0 < T) :
    (st_observation_build nets r_std rand0 noise acts T).getD 0 (fun _ _ => 0) =
      fun i c => rand0 i c - 1 := by
  rw [st_observation_build_stable nets r_std rand0 noise acts T 0 h]
  rfl

lemma st_observation_build_elem_succ (t : ℕ) :
    (st_observation_build nets r_std rand0 noise acts (t + 2)).getD (t + 1) (fun _ _ => 0) =
      st_obs_step nets (fun i c => r_std * noise (t + 1) i c) (fun i c => acts i (t + 1) c)
        ((st_observation_build nets r_std rand0 noise acts (t + 1)).getD t (fun _ _ => 0)) := by
  have hl : (st_observation_build nets r_std rand0 noise acts (t + 1)).length = t + 1 :=
    st_observation_build_length nets r_std rand0 noise acts (t + 1)
  rw [st_observation_build, getD_snoc_eq _ _ _ _ hl.symm]
  rw [if_neg (Nat.succ_ne_zero t), Nat.add_sub_cancel]

lemma st_prediction_build_length (T : ℕ) :
    (st_prediction_build nets r_std noiseP acts stObsL observe T).length = T := by
  induction T with
  | zero => rfl
  | succ T ih => simp [st_prediction_build, ih]

lemma st_prediction_build_stable (T t : ℕ) (h : t < T) :
    (st_prediction_build nets r_std noiseP acts stObsL observe T).getD t (fun _ _ => 0) =
      (st_prediction_build nets r_std noiseP acts stObsL observe (t + 1)).getD t
        (fun _ _ => 0) := by
  induction T with
  | zero => exact absurd h (Nat.not_lt_zero t)
  | succ T ih =>
    rcases Nat.lt_succ_iff_lt_or_eq.mp h with h2 | h2
    · rw [st_prediction_build]
      rw [getD_snoc_lt _ _ _ t (by rw [st_prediction_build_length]; exact h2)]
      exact ih h2
    · subst h2
      rfl

lemma st_prediction_build_elem_zero (T : ℕ) (h : 0 < T) :
    (st_prediction_build nets r_std noiseP acts stObsL observe T).getD 0 (fun _ _ => 0) =
      st_obs_step nets (fun i c => r_std * noiseP 0 i c) (fun i c => acts i (0 + observe) c)
        (stObsL.getD (stObsL.length - 1) (fun _ _ => 0)) := by
  rw [st_prediction_build_stable nets r_std noiseP acts stObsL observe T 0 h]
  rfl

lemma st_prediction_build_elem_succ (t : ℕ) :
    (st_prediction_build nets r_std noiseP acts stObsL observe (t + 2)).getD (t + 1)
        (fun _ _ => 0) =
      st_obs_step nets (fun i c => r_std * noiseP (t + 1) i c)
        (fun i c => acts i (t + 1 + observe) c)
        ((st_prediction_build nets r_std noiseP acts stObsL observe (t + 1)).getD t
          (fun _ _ => 0)) := by
  have hl : (st_prediction_build nets r_std noiseP acts stObsL observe (t + 1)).length = t + 1 :=
    st_prediction_build_length nets r_std noiseP acts stObsL observe (t + 1)
  rw [st_prediction_build, getD_snoc_eq _ _ _ _ hl.symm]
  rw [if_neg (Nat.succ_ne_zero t), Nat.add_sub_cancel]

end StLemmas

/-- C4: in every forward call (the loops of lines 139-168 embedded as
st_observation_build and st_prediction_build), the observation-phase state
at t = 0 is a uniform draw from [-1, 0) (torch.rand - 1); for every t > 0
the state satisfies s_t = s_prev + M a_t ⊙ sigma (s_prev + M a_t) + eps
with M the bias-free learned linear action projection, sigma the
linear-tanh-linear-sigmoid gate network, and eps the Gaussian draw of
standard deviation r_std (r_std times a unit draw); and the
prediction-phase sequence follows the same recursion, seeded by the final
observation-phase state, with actions indexed at t + observe_dim. -/
theorem spatial_state_transition_rule
    (a_dim s_dim : ℕ) (M W1 W2 : ℕ → ℕ → ℝ) (b1 b2 : ℕ → ℝ) (nets : Nets ℝ)
    (hM : nets.enc_st_matrix = enc_st_matrix_real a_dim M)
    (hG : nets.enc_st_sigmoid = enc_st_sigmoid_real s_dim W1 b1 W2 b2)
    (r_std : ℝ) (rand0 : ℕ → ℕ → ℝ) (noise noiseP : ℕ → ℕ → ℕ → ℝ)
    (acts : ℕ → ℕ → ℕ → ℝ) (observe T Tp : ℕ)
    (hrand : ∀ i c, 0 ≤ rand0 i c ∧ rand0 i c < 1) :
    (0 < T → ∀ i c,
      -1 ≤ (st_observation_build nets r_std rand0 noise acts T).getD 0 (fun _ _ => 0) i c ∧
        (st_observation_build nets r_std rand0 noise acts T).getD 0 (fun _ _ => 0) i c < 0) ∧
    (∀ t, t + 1 < T → ∀ i c,
      (st_observation_build nets r_std rand0 noise acts T).getD (t + 1) (fun _ _ => 0) i c =
        specTransitionRule (enc_st_matrix_real a_dim M)
          (enc_st_sigmoid_real s_dim W1 b1 W2 b2)
          (fun c2 =>
            (st_observation_build nets r_std rand0 noise acts T).getD t (fun _ _ => 0) i c2)
          (fun a => acts i (t + 1) a) (fun c2 => r_std * noise (t + 1) i c2) c) ∧
    (0 < Tp → ∀ i c,
      (st_prediction_build nets r_std noiseP acts
          (st_observation_build nets r_std rand0 noise acts T) observe Tp).getD 0
          (fun _ _ => 0) i c =
        specTransitionRule (enc_st_matrix_real a_dim M)
          (enc_st_sigmoid_real s_dim W1 b1 W2 b2)
          (fun c2 =>
            (st_observation_build nets r_std rand0 noise acts T).getD
              ((st_observation_build nets r_std rand0 noise acts T).length - 1)
              (fun _ _ => 0) i c2)
          (fun a => acts i (0 + observe) a) (fun c2 => r_std * noiseP 0 i c2) c) ∧
    (∀ t, t + 1 < Tp → ∀ i c,
      (st_prediction_build nets r_std noiseP acts
          (st_observation_build nets r_std rand0 noise acts T) observe Tp).getD (t + 1)
          (fun _ _ => 0) i c =
        specTransitionRule (enc_st_matrix_real a_dim M)
          (enc_st_sigmoid_real s_dim W1 b1 W2 b2)
          (fun c2 =>
            (st_prediction_build nets r_std noiseP acts
              (st_observation_build nets r_std rand0 noise acts T) observe Tp).getD t
              (fun _ _ => 0) i c2)
          (fun a => acts i (t + 1 + observe) a) (fun c2 => r_std * noiseP (t + 1) i c2) c) := by
  refine ⟨?_, ?_, ?_, ?_⟩
  · intro hT i c
    rw [st_observation_build_elem_zero nets r_std rand0 noise acts T hT]
    obtain ⟨h1, h2⟩ := hrand i c
    constructor <;> simp <;> linarith
  · intro t ht i c
    rw [st_observation_build_stable nets r_std rand0 noise acts T (t + 1) ht]
    rw [st_observation_build_elem_succ nets r_std rand0 noise acts t]
    rw [← st_observation_build_stable nets r_std rand0 noise acts T t
      (Nat.lt_of_succ_lt ht)]
    simp only [st_obs_step, specTransitionRule, hM, hG]
  · intro hTp i c
    rw [st_prediction_build_elem_zero nets r_std noiseP acts
      (st_observation_build nets r_std rand0 noise acts T) observe Tp hTp]
    simp only [st_obs_step, specTransitionRule, hM, hG]
  · intro t ht i c
    rw [st_prediction_build_stable nets r_std noiseP acts
      (st_observation_build nets r_std rand0 noise acts T) observe Tp (t + 1) ht]
    rw [st_prediction_build_elem_succ nets r_std noiseP acts
      (st_observation_build nets r_std rand0 noise acts T) observe t]
    rw [← st_prediction_build_stable nets r_std noiseP acts
      (st_observation_build nets r_std rand0 noise acts T) observe Tp t
      (Nat.lt_of_succ_lt ht)]
    simp only [st_obs_step, specTransitionRule, hM, hG]

theorem spatial_state_transition_rule_witness :
    -1 ≤ (st_observation_build transitionNetsInstance 1 (fun _ _ => 0) (fun _ _ _ => 0)
        (fun _ _ _ => 0) 1).getD 0 (fun _ _ => 0) 0 0 ∧
      (st_observation_build transitionNetsInstance 1 (fun _ _ => 0) (fun _ _ _ => 0)
        (fun _ _ _ => 0) 1).getD 0 (fun _ _ => 0) 0 0 < 0 :=
  (spatial_state_transition_rule 5 2 (fun _ _ => 0) (fun _ _ => 0) (fun _ _ => 0)
    (fun _ => 0) (fun _ => 0) transitionNetsInstance rfl rfl 1 (fun _ _ => 0)
    (fun _ _ _ => 0) (fun _ _ _ => 0) (fun _ _ _ => 0) 0 1 0
    (fun _ _ => ⟨le_refl 0, zero_lt_one⟩)).1 Nat.one_pos 0 0

lemma walkRun_length (r : WalkRand) :
    ∀ (n : ℕ) (s : WalkState) (t : ℕ) (l : List WalkState),
      walkRun r s t n = some l → l.length = n := by
  intro n
  induction n with
  | zero =>
    intro s t l h
    simp only [walkRun, Option.some.injEq] at h
    rw [← h]
    rfl
  | succ n ih =>
    intro s t l h
    simp only [walkRun] at h
    cases hstep : walkStep r (t + 1) s with
    | none => rw [hstep] at h; exact absurd h (by simp)
    | some s2 =>
      rw [hstep, Option.some_bind] at h
      cases hrun : walkRun r s2 (t + 1) n with
      | none => rw [hrun] at h; exact absurd h (by simp)
      | some l2 =>
        rw [hrun, Option.map_some'] at h
        rw [← Option.some.inj h]
        simp [ih s2 (t + 1) l2 hrun]

lemma walkTrace_length (r : WalkRand) (T : ℕ) (l : List WalkState)
    (h : walkTrace r T = some l) : l.length = T := by
  cases T with
  | zero =>
    simp only [walkTrace, Option.some.injEq] at h
    rw [← h]
    rfl
  | succ n =>
    simp only [walkTrace] at h
    cases hrun : walkRun r (walkInit r) 0 n with
    | none => rw [hrun] at h; exact absurd h (by simp)
    | some l2 =>
      rw [hrun, Option.map_some'] at h
      rw [← Option.some.inj h]
      simp [walkRun_length r n (walkInit r) 0 l2 hrun]

lemma seqOption_length {α β : Type} (f : α → Option β) :
    ∀ (as : List α) (bs : List β), seqOption f as = some bs → bs.length = as.length := by
  intro as
  induction as with
  | nil =>
    intro bs h
    simp only [seqOption, Option.some.injEq] at h
    rw [← h]
    rfl
  | cons a as ih =>
    intro bs h
    simp only [seqOption] at h
    cases hfa : f a with
    | none => rw [hfa] at h; exact absurd h (by simp)
    | some b0 =>
      rw [hfa] at h
      cases hrest : seqOption f as with
      | none => rw [hrest] at h; exact absurd h (by simp)
      | some bs0 =>
        rw [hrest] at h
        rw [← Option.some.inj h]
        simp [ih bs0 hrest]

lemma random_walk_lengths (batch total : ℕ) (tapes : ℕ → WalkRand)
    (ws : List (List WalkState)) (h : random_walk batch total tapes = some ws) :
    ws.length = batch ∧ ∀ l ∈ ws, l.length = total := by
  constructor
  · have h2 := seqOption_length _ (List.range batch) ws h
    simpa using h2
  · intro l hl
    obtain ⟨i, _, htrace⟩ := seqOption_mem _ (List.range batch) ws h l hl
    exact walkTrace_length (tapes i) total l htrace

lemma forwardCore_ok_position {R : Type} [LinearOrderedField R] (nets : Nets R)
    (m : GTM_SM R) (x : Tensor R) (env : ForwardRand R) (out : ForwardOutput R)
    (h : forwardCore nets m x env = Except.ok out) :
    ∃ walks, random_walk m.batch_size m.total_dim env.walkTape = some walks ∧
      out.position = walks.map (fun l => l.map WalkState.pos) := by
  unfold forwardCore at h
  split at h
  · exact absurd h (by simp)
  · rename_i walks hw
    split_ifs at h with h1 h2 h3 h4 h5 h6 <;>
      first
        | exact Except.noConfusion h
        | exact ⟨walks, hw, by rw [← Except.ok.inj h]; rfl⟩

lemma forward_fst {R : Type} [LinearOrderedField R] (nets : Nets R) (m : GTM_SM R)
    (x : Tensor R) (env : ForwardRand R) :
    (forward nets m x env).1 =
      forwardCore nets (if m.training then m else { m with total_dim := 512 })
        (normalizeInput x) env := rfl

lemma forward_snd {R : Type} [LinearOrderedField R] (nets : Nets R) (m : GTM_SM R)
    (x : Tensor R) (env : ForwardRand R) :
    (forward nets m x env).2 =
      if m.training = false ∧
          (forwardCore nets (if m.training then m else { m with total_dim := 512 })
            (normalizeInput x) env).isOk = true then
        { (if m.training then m else { m with total_dim := 512 }) with
            total_dim := m.total_dim }
      else if m.training then m else { m with total_dim := 512 } := rfl

/-- C5: an inference-mode forward call internally uses a total horizon of
512 for the duration of that call only — every successful call returns one
position sequence of length 512 per sample — and after the call returns,
the configured total horizon field equals its value from before the call,
as observed on the returned configuration. -/
theorem inference_restores_total_dim {R : Type} [LinearOrderedField R] (nets : Nets R)
    (m : GTM_SM R) (x : Tensor R) (env : ForwardRand R)
    (h1 : m.training = false) (h2 : (forward nets m x env).1.isOk = true) :
    (forward nets m x env).2.total_dim = m.total_dim ∧
      ∀ out, (forward nets m x env).1 = Except.ok out →
        out.position.length = m.batch_size ∧ ∀ p ∈ out.position, p.length = 512 := by
  rw [forward_fst nets m x env, h1] at h2
  rw [if_neg (Bool.false_ne_true)] at h2
  constructor
  · rw [forward_snd nets m x env, h1]
    rw [if_neg (Bool.false_ne_true)]
    rw [if_pos ⟨rfl, h2⟩]
  · intro out hout
    rw [forward_fst nets m x env, h1, if_neg (Bool.false_ne_true)] at hout
    obtain ⟨walks, hw, hpos⟩ := forwardCore_ok_position nets _ _ env out hout
    obtain ⟨hlen, hall⟩ := random_walk_lengths _ _ _ _ hw
    constructor
    · rw [hpos, List.length_map]
      exact hlen
    · intro p hp
      rw [hpos] at hp
      obtain ⟨l, hl, rfl⟩ := List.mem_map.mp hp
      rw [List.length_map]
      exact hall l hl

/-- C8 (amended): a training-mode forward call leaves the configuration
unchanged; an inference-mode call that raises leaves the total horizon
field at the internally-installed 512 instead of restoring it, so forward
is not atomic with respect to externally visible state. -/
theorem forward_mutation_characterization {R : Type} [LinearOrderedField R] (nets : Nets R)
    (m : GTM_SM R) (x : Tensor R) (env : ForwardRand R) :
    (m.training = true → (forward nets m x env).2 = m) ∧
    (m.training = false → (forward nets m x env).1.isOk = false →
      (forward nets m x env).2.total_dim = 512) := by
  constructor
  · intro h1
    rw [forward_snd nets m x env, h1]
    rw [if_neg (by simp)]
    rw [if_pos rfl]
  · intro h1 h2
    rw [forward_fst nets m x env, h1, if_neg (Bool.false_ne_true)] at h2
    rw [forward_snd nets m x env, h1, if_neg (Bool.false_ne_true)]
    rw [if_neg (by simp [h2])]

/-- C10: a 3-dimensional input (a single image without a batch dimension)
is accepted and processed exactly as the same input with a batch dimension
of one prepended, before any other work; the prepended shape is
1 :: shape (4-dimensional inputs pass through normalizeInput unchanged by
definition). -/
theorem threeD_input_unsqueezed {R : Type} [LinearOrderedField R] (nets : Nets R)
    (m : GTM_SM R) (x : Tensor R) (env : ForwardRand R) (h3 : x.shape.length = 3) :
    forward nets m x env = forward nets m (unsqueeze0 x) env ∧
      (unsqueeze0 x).shape = 1 :: x.shape := by
  refine ⟨?_, rfl⟩
  have hn : normalizeInput x = normalizeInput (unsqueeze0 x) := by
    unfold normalizeInput
    rw [if_pos h3, if_neg (by simp [unsqueeze0, h3])]
  unfold forward
  rw [hn]

/-- C6 (counterexample): construction with K = 5 and observation horizon
3 succeeds — GTM_SM_init performs no validation and raises no
ConfigurationError. -/
theorem construction_no_validation_counterexample :
    (GTM_SM_init (R := ℚ) 8 5 2 16 3 288 (1 / 1000) 5 (1 / 10000) 1000 1).isOk = true := rfl

/-- C6 (amended): construction never validates anything: for every
argument tuple, including K greater than the observation horizon or an
observation horizon exceeding the total horizon, the constructor returns
the stored configuration without raising. -/
theorem construction_always_succeeds {R : Type} [LinearOrderedField R]
    (x_dim a_dim s_dim z_dim observe_dim total_dim : ℕ) (r_std : R)
    (k_nearest_neighbour : ℕ) (delta : R) (kl_samples batch_size : ℕ) :
    GTM_SM_init x_dim a_dim s_dim z_dim observe_dim total_dim r_std k_nearest_neighbour
        delta kl_samples batch_size =
      Except.ok
        { x_dim := x_dim, a_dim := a_dim, s_dim := s_dim, z_dim := z_dim,
          observe_dim := observe_dim, total_dim := total_dim, r_std := r_std,
          k_nearest_neighbour := k_nearest_neighbour, delta := delta,
          kl_samples := kl_samples, batch_size := batch_size, training := true } := rfl

theorem forward_error_leaves_mutation_counterexample :
    (forward qZeroNets qModelInference qBadInput qEnv).1.isOk = false ∧
    (forward qZeroNets qModelInference qBadInput qEnv).2.total_dim = 512 ∧
    qModelInference.total_dim = 288 := by
  refine ⟨by decide, by decide, rfl⟩

theorem inference_restores_total_dim_witness :
    (forward qZeroNets qModelInferenceValid qGoodInput qEnv).2.total_dim = 288 ∧
      ∀ out, (forward qZeroNets qModelInferenceValid qGoodInput qEnv).1 = Except.ok out →
        out.position.length = 1 ∧ ∀ p ∈ out.position, p.length = 512 :=
  inference_restores_total_dim qZeroNets qModelInferenceValid qGoodInput qEnv rfl (by decide)

theorem forward_mutation_characterization_witness :
    (forward qZeroNets { qModelInference with training := true } qGoodInput qEnv).2 =
      { qModelInference with training := true } ∧
    (forward qZeroNets qModelInference qBadInput qEnv).2.total_dim = 512 :=
  ⟨(forward_mutation_characterization qZeroNets { qModelInference with training := true }
      qGoodInput qEnv).1 rfl,
    (forward_mutation_characterization qZeroNets qModelInference qBadInput qEnv).2 rfl
      (by decide)⟩

theorem threeD_input_unsqueezed_witness :
    forward qZeroNets qModelInference { shape := [3, 32, 32], data := fun _ => (0 : ℚ) }
        qEnv =
      forward qZeroNets qModelInference
        (unsqueeze0 { shape := [3, 32, 32], data := fun _ => (0 : ℚ) }) qEnv ∧
      (unsqueeze0 { shape := [3, 32, 32], data := fun _ => (0 : ℚ) }).shape =
        1 :: [3, 32, 32] :=
  threeD_input_unsqueezed qZeroNets qModelInference
    { shape := [3, 32, 32], data := fun _ => (0 : ℚ) } qEnv rfl
